import Mathlib

/-!
Verification of the uWebSockets.js adapter for graphql-yoga
(`examples/uwebsockets/src/app.ts`).

The development shallowly embeds the two handlers of that file:

* `yogaHandler` — the HTTP adapter: it aggregates socket body chunks into a
  Node `Readable` stream, copies the header iterator into a plain object,
  calls `yoga.fetch`, and writes the computed response back to the socket.
* `wsHandler` — the `graphql-ws` behavior: its `onSubscribe` resolves the
  currently-enveloped `execute`/`subscribe`/`parse`/`validate`/`contextFactory`
  per operation and carries the resolved implementations in the built
  `ExecutionArgs`' `rootValue`, from which the behavior's `execute`/`subscribe`
  wrappers later read them.

Byte chunks are modelled as `List Nat`; callback-driven effects are modelled
as explicit event lists.
-/

namespace UwsYoga

/-- A raw body chunk: a sequence of bytes (`ArrayBuffer` / `Buffer` contents). -/
abbrev Chunk := List Nat

/-! ### Chunk Aggregator (`yogaHandler`, body stream wiring)

The source registers `res.onData((chunk, isLast) => { body.push(Buffer.from(chunk));
if (isLast) body.push(null) })` and `res.onAborted(() => { body.push(null) })`
on a `Readable` with a no-op `read()`.  We model the socket-side callbacks as a
list of `SocketEvent`s in firing order and the `Readable` as the list of
signals pushed into it: a pushed buffer becomes a `chunk` signal and `push(null)`
becomes an `eof` signal.  The handler never destroys the stream with an error,
so it can never push an `err` signal (the constructor exists so that absence of
errors is a statement, not a modelling artifact). -/

/-- A socket-layer body callback firing: either `onData(chunk, isLast)` or
`onAborted()`. -/
inductive SocketEvent where
  | data (chunk : Chunk) (isLast : Bool)
  | aborted
deriving DecidableEq

/-- A signal entering the `Readable` stream: a data chunk (`push(buffer)`),
end-of-stream (`push(null)`), or a stream error (never produced by this code,
which has no error path). -/
inductive StreamSignal where
  | chunk (c : Chunk)
  | eof
  | err
deriving DecidableEq

/-- Embedding of the two callbacks registered in `yogaHandler` (app.ts lines
55–63): `onData` pushes the buffer, then `null` when `isLast`; `onAborted`
pushes `null`. -/
def handleSocketEvent : SocketEvent → List StreamSignal
  | .data c true => [.chunk c, .eof]
  | .data c false => [.chunk c]
  | .aborted => [.eof]

/-- All signals pushed into the body stream by a sequence of socket callbacks. -/
def pushedSignals : List SocketEvent → List StreamSignal
  | [] => []
  | e :: es => handleSocketEvent e ++ pushedSignals es

/-- Whether a stream signal is a data chunk. -/
def StreamSignal.isChunk : StreamSignal → Bool
  | .chunk _ => true
  | _ => false

/-- Whether a stream signal is an end-of-stream signal. -/
def StreamSignal.isEof : StreamSignal → Bool
  | .eof => true
  | _ => false

/-- Whether a stream signal is an error signal. -/
def StreamSignal.isErr : StreamSignal → Bool
  | .err => true
  | _ => false

/-- The chunks a consumer of the `Readable` observes: data pushed before the
first terminating signal (a `Readable` delivers nothing after end-of-stream). -/
def deliveredChunks (sigs : List StreamSignal) : List Chunk :=
  (sigs.takeWhile StreamSignal.isChunk).filterMap fun s =>
    match s with
    | .chunk c => some c
    | _ => none

/-- The first non-chunk signal the consumer reaches, if any: `some .eof` means
the stream completes cleanly, `some .err` would mean it errors. -/
def firstTerminator (sigs : List StreamSignal) : Option StreamSignal :=
  (sigs.dropWhile StreamSignal.isChunk).head?

/-- Number of end-of-stream signals pushed. -/
def eofCount (sigs : List StreamSignal) : Nat :=
  (sigs.filter StreamSignal.isEof).length

/-- Number of error signals pushed. -/
def errCount (sigs : List StreamSignal) : Nat :=
  (sigs.filter StreamSignal.isErr).length

/-- The chunks carried by `onData` events, in arrival order. -/
def dataChunks : List SocketEvent → List Chunk
  | [] => []
  | .data c _ :: es => c :: dataChunks es
  | .aborted :: es => dataChunks es

/-! ### Request Adapter (`yogaHandler`, lines 48–80)

`req.getMethod()` returns the lower-cased verb.  A body stream is created and
wired to the aggregator only when the method is neither `get` nor `head`.
`req.forEach((key, value) => { headers[key] = value })` copies the header
iterator into a plain object before the first `await`; uWebSockets.js delivers
the keys lower-cased. -/

/-- The socket-level request as the handler consumes it: method, URL and the
snapshot of the header iterator in iteration order. -/
structure HttpRequestModel where
  method : String
  url : String
  headerPairs : List (String × String)

/-- Embedding of `headers[key] = value` over `req.forEach` (lines 65–68):
sequential assignment into a plain object, read back as a lookup function. -/
def buildHeaders (pairs : List (String × String)) : String → Option String :=
  pairs.foldl (fun m kv => fun q => if q = kv.1 then some kv.2 else m q) fun _ => none

/-- Whether a header key is lower-cased: it contains no upper-case letter.
uWebSockets.js delivers request header keys this way. -/
def isLowercaseKey (s : String) : Bool :=
  s.data.all fun c => !c.isUpper

/-- Statement-side reference lookup, following the spec wording
"last-write-wins on duplicates": the value of the last pair with the given key. -/
def specLookupLastWins : List (String × String) → String → Option String
  | [], _ => none
  | kv :: rest, k =>
    match specLookupLastWins rest k with
    | some v => some v
    | none => if kv.1 = k then some kv.2 else none

/-- The request object handed to `yoga.fetch` (lines 69–80), with the body, when
present, represented by the aggregator that backs it (`pushedSignals`). -/
structure FetchInit where
  method : String
  headers : String → Option String
  body : Option (List SocketEvent → List StreamSignal)

/-- Embedding of the adaptation performed by `yogaHandler` before calling
`yoga.fetch`: `body` is created only when `method !== 'get' && method !== 'head'`
(line 50); headers are the copied mapping. -/
def adaptRequest (req : HttpRequestModel) : FetchInit where
  method := req.method
  headers := buildHeaders req.headerPairs
  body := if req.method ≠ "get" ∧ req.method ≠ "head" then some pushedSignals else none

/-- The phases of `yogaHandler` in program order; `awaitFetch` (the
`await yoga.fetch(...)` on line 69) is the first asynchronous suspension point,
everything before it runs synchronously in the socket callback. -/
inductive Phase where
  | readMethod
  | setupBodyStream
  | copyHeaders
  | awaitFetch
  | writeResponse
deriving DecidableEq

/-- Control flow of `yogaHandler` (lines 48–98): read the method, conditionally
set up the body stream, copy the headers, await the fetch, then write the
response. -/
def yogaHandlerPhases (method : String) : List Phase :=
  .readMethod ::
    (if method ≠ "get" ∧ method ≠ "head" then [Phase.setupBodyStream] else []) ++
      [Phase.copyHeaders, Phase.awaitFetch, Phase.writeResponse]

/-- Index of the first occurrence of a phase in a phase list (length if absent). -/
def idxOfPhase (p : Phase) : List Phase → Nat
  | [] => 0
  | q :: rest => if p = q then 0 else idxOfPhase p rest + 1

/-! ### Response Writer (`yogaHandler`, lines 81–98)

The handler issues these sink calls, in order: `res.writeStatus(...)`, one
`res.writeHeader(key, value)` per response header whose key is not
`content-length` (iterating `response.headers`, a fetch `Headers` object), then
— depending on the body — `res.end(body)` for a `Uint8Array` body,
`res.write(chunk)` per async chunk followed by `res.end()`, or `res.end()`
directly when there is no body. -/

/-- The body of the computed fetch response: a single `Uint8Array` buffer or an
asynchronous sequence of chunks. -/
inductive RBody where
  | buffer (bytes : Chunk)
  | stream (chunks : List Chunk)
deriving DecidableEq

/-- The computed response (`status`, `statusText`, `headers` in iteration
order, optional body) coming back from `yoga.fetch`. -/
structure ResponseModel where
  status : Nat
  statusText : String
  headers : List (String × String)
  body : Option RBody

/-- A literal call issued on the uWebSockets `HttpResponse` sink. `endCall`
carries the optional data argument of `res.end(...)`. -/
inductive SinkCall where
  | writeStatus (line : String)
  | writeHeader (key value : String)
  | write (chunk : Chunk)
  | endCall (data : Option Chunk)
deriving DecidableEq

/-- The status line as the template literal on line 81 formats it. -/
def statusLine (r : ResponseModel) : String :=
  toString r.status ++ " " ++ r.statusText

/-- The `writeHeader` calls issued by the loop on lines 82–88: one per header,
in order, skipping exactly the key `content-length`. -/
def headerCalls (headers : List (String × String)) : List SinkCall :=
  (headers.filter fun kv => !(kv.1 == "content-length")).map fun kv =>
    .writeHeader kv.1 kv.2

/-- The calls issued for the body (lines 89–98): `res.end(body)` for a buffer
body, a `res.write` per chunk then `res.end()` for a stream body, bare
`res.end()` when there is no body. -/
def bodyCalls : Option RBody → List SinkCall
  | some (.buffer b) => [.endCall (some b)]
  | some (.stream cs) => cs.map SinkCall.write ++ [.endCall none]
  | none => [.endCall none]

/-- All sink calls `yogaHandler` issues for a computed response, in order. -/
def responseCalls (r : ResponseModel) : List SinkCall :=
  .writeStatus (statusLine r) :: (headerCalls r.headers ++ bodyCalls r.body)

/-- The write phase of `yogaHandler` as a function of whether the abort
callback has fired by the time the response is written.  The source consults
no aborted flag anywhere in lines 81–98: the calls are issued unconditionally,
so the result does not depend on the flag. -/
def writePhaseCalls : Bool → ResponseModel → List SinkCall :=
  fun _ r => responseCalls r

/-- The effect of a sink call on the socket exchange, per the uWebSockets sink
semantics: `res.end(data)` writes the data and terminates the exchange in one
step; `res.end()` only terminates. -/
inductive SinkEffect where
  | statusEff (line : String)
  | headerEff (key value : String)
  | bodyWrite (chunk : Chunk)
  | term
deriving DecidableEq

/-- Interpretation of one sink call as its effects. -/
def callEffects : SinkCall → List SinkEffect
  | .writeStatus s => [.statusEff s]
  | .writeHeader k v => [.headerEff k v]
  | .write c => [.bodyWrite c]
  | .endCall (some c) => [.bodyWrite c, .term]
  | .endCall none => [.term]

/-- Effects of a call sequence, in order. -/
def traceEffects : List SinkCall → List SinkEffect
  | [] => []
  | c :: cs => callEffects c ++ traceEffects cs

/-- Whether an effect is a header write. -/
def SinkEffect.isHeaderEff : SinkEffect → Bool
  | .headerEff _ _ => true
  | _ => false

/-- Whether an effect is a body write. -/
def SinkEffect.isBodyWrite : SinkEffect → Bool
  | .bodyWrite _ => true
  | _ => false

/-- Whether an effect terminates the exchange. -/
def SinkEffect.isTerm : SinkEffect → Bool
  | .term => true
  | _ => false

/-- The body bytes written, in order. -/
def bodyWritesOf (effects : List SinkEffect) : List Chunk :=
  effects.filterMap fun e =>
    match e with
    | .bodyWrite c => some c
    | _ => none

/-- Number of termination effects. -/
def termCountOf (effects : List SinkEffect) : Nat :=
  (effects.filter SinkEffect.isTerm).length

/-- The header pair carried by a call, when it is a `writeHeader` call. -/
def headerOf : SinkCall → Option (String × String)
  | .writeHeader k v => some (k, v)
  | _ => none

/-- Whether a sink call forwards a header literally named `content-length`. -/
def mentionsContentLength : SinkCall → Bool
  | .writeHeader k _ => k == "content-length"
  | _ => false

/-- Scans an effect trace: once a body write occurs, no header write may follow. -/
def headersPrecedeBodyWrites : List SinkEffect → Bool
  | [] => true
  | .bodyWrite _ :: rest => rest.all fun e => !e.isHeaderEff
  | _ :: rest => headersPrecedeBodyWrites rest

/-- Statement-side description of the expected body effects for each body
form: a buffer is written whole then the exchange terminated, a stream is
written chunk by chunk then terminated, no body terminates immediately. -/
def expectedBodyEffects : Option RBody → List SinkEffect
  | some (.buffer b) => [.bodyWrite b, .term]
  | some (.stream cs) => cs.map SinkEffect.bodyWrite ++ [.term]
  | none => [.term]

/-- The header-write effects expected for a header list: one per header in
order, the `content-length` key skipped. -/
def expectedHeaderEffects (headers : List (String × String)) : List SinkEffect :=
  (headers.filter fun kv => !(kv.1 == "content-length")).map fun kv =>
    .headerEff kv.1 kv.2

/-- Statement-side description of the bytes expected on the wire for each body
form: the whole buffer in one write, the stream chunks in order, or nothing. -/
def expectedBodyChunks : Option RBody → List Chunk
  | some (.buffer b) => [b]
  | some (.stream cs) => cs
  | none => []

/-! ### Subscription bridge (`wsHandler`, lines 101–134)

`yoga.getEnveloped(ctx)` returns the currently active
`{ schema, execute, subscribe, contextFactory, parse, validate }` tuple; it may
differ from call to call because envelop plugins can wrap `execute`/`subscribe`
at runtime.  We abstract over the engine types: `S` (schema), `D` (parsed
document), `E` (GraphQL error), `V` (variables), `C` (context value) and `I`
(an execute/subscribe implementation).  Implementations are opaque values of
`I`; "invoking" one is modelled by reporting which value of `I` is applied,
which is exactly what the claims about freshness are about.  `parse` can throw
on malformed input, so it is modelled as `Except`. -/

/-- The tuple destructured from `yoga.getEnveloped(ctx)` on lines 115–116. -/
structure Envelope (S D E I C : Type) where
  schema : S
  execute : I
  subscribe : I
  contextFactory : C
  parse : String → Except E D
  validate : S → D → List E

/-- The payload of a `graphql-ws` subscribe (start-operation) message. -/
structure SubscribePayload (V : Type) where
  operationName : Option String
  query : String
  vars : V

/-- A `graphql-ws` subscribe message as `onSubscribe` consumes it (`vars`
models the payload field holding the operation variables, whose source name is
a Lean keyword). -/
structure SubscribeMessage (V : Type) where
  payload : SubscribePayload V

/-- The `rootValue` the source smuggles the freshly resolved implementations
through (`EnvelopedExecutionArgs`, lines 103–108). -/
structure RootValue (I : Type) where
  execute : I
  subscribe : I

/-- The `ExecutionArgs` built by `onSubscribe` (lines 118–128), with
`rootValue` carrying the implementations resolved for this operation. -/
structure EnvelopedExecutionArgs (S D V C I : Type) where
  schema : S
  operationName : Option String
  document : D
  variableValues : V
  contextValue : C
  rootValue : RootValue I

/-- The observable steps `onSubscribe` performs, in order: the
`yoga.getEnveloped` call, the `parse` of the query text, the awaited
`contextFactory()` call, and the `validate` call. -/
inductive OnSubEvent where
  | getEnvelopedCall
  | parseCall
  | contextFactoryCall
  | validateCall
deriving DecidableEq

/-- Embedding of `onSubscribe` (lines 114–133), paired with the trace of steps
it performs.  The object literal evaluates its fields in source order, so
`parse` runs before `await contextFactory()`; a parse throw aborts the function
before the context factory is called.  After building the args it runs
`validate(args.schema, args.document)` and returns the full error list when it
is non-empty, the args otherwise. -/
def onSubscribeRun {S D E I C V : Type} (env : Envelope S D E I C)
    (msg : SubscribeMessage V) :
    List OnSubEvent × Except E (List E ⊕ EnvelopedExecutionArgs S D V C I) :=
  match env.parse msg.payload.query with
  | .error e => ([.getEnvelopedCall, .parseCall], .error e)
  | .ok doc =>
    let args : EnvelopedExecutionArgs S D V C I :=
      { schema := env.schema
        operationName := msg.payload.operationName
        document := doc
        variableValues := msg.payload.vars
        contextValue := env.contextFactory
        rootValue := { execute := env.execute, subscribe := env.subscribe } }
    let errors := env.validate args.schema args.document
    ([.getEnvelopedCall, .parseCall, .contextFactoryCall, .validateCall],
      .ok (if errors.length ≠ 0 then .inl errors else .inr args))

/-- The behavior's `execute` option (line 111):
`(args) => (args as EnvelopedExecutionArgs).rootValue.execute(args)` — it
invokes whatever implementation the args carry in `rootValue`; with
implementations opaque, this selects that implementation. -/
def behaviorExecute {S D V C I : Type} (args : EnvelopedExecutionArgs S D V C I) : I :=
  args.rootValue.execute

/-- The behavior's `subscribe` option (lines 112–113), reading
`rootValue.subscribe` of the args. -/
def behaviorSubscribe {S D V C I : Type} (args : EnvelopedExecutionArgs S D V C I) : I :=
  args.rootValue.subscribe

/-- The terminal disposition of one start-operation frame. -/
inductive OpOutcome (E I : Type) where
  | thrown (e : E)
  | errorMessage (errors : List E)
  | started (impl : I)
deriving DecidableEq

/-- Modelled from the `graphql-ws` server contract the spec describes
(`makeBehavior` is an external dependency): when `onSubscribe` throws, the
exception is the outcome; when it returns a list of errors, those errors are
the operation's terminal protocol message and execution never starts; when it
returns `ExecutionArgs`, the behavior's `subscribe` (for a subscription
operation) or `execute` option is invoked on those args. -/
def runOperation {S D E I C V : Type} (isSubscription : Bool)
    (env : Envelope S D E I C) (msg : SubscribeMessage V) : OpOutcome E I :=
  match (onSubscribeRun env msg).2 with
  | .error e => .thrown e
  | .ok (.inl errs) => .errorMessage errs
  | .ok (.inr args) =>
    .started (if isSubscription then behaviorSubscribe args else behaviorExecute args)

/-! ## Theorems -/

theorem pushedSignals_append (a b : List SocketEvent) :
    pushedSignals (a ++ b) = pushedSignals a ++ pushedSignals b := by
  induction a with
  | nil => simp [pushedSignals]
  | cons e es ih => simp [pushedSignals, ih]

theorem pushedSignals_data_false (chunks : List Chunk) :
    pushedSignals (chunks.map fun c => SocketEvent.data c false) =
      chunks.map StreamSignal.chunk := by
  induction chunks with
  | nil => rfl
  | cons c cs ih => simp [pushedSignals, handleSocketEvent, ih]

theorem pushedSignals_of_data_events (pre : List SocketEvent)
    (h : ∀ e ∈ pre, ∃ c, e = SocketEvent.data c false) :
    pushedSignals pre = (dataChunks pre).map StreamSignal.chunk := by
  induction pre with
  | nil => rfl
  | cons e es ih =>
    obtain ⟨c, rfl⟩ := h e (List.mem_cons_self e es)
    have ih2 := ih fun x hx => h x (List.mem_cons_of_mem _ hx)
    simp [pushedSignals, handleSocketEvent, dataChunks, ih2]

theorem takeWhile_chunk_front (cs : List Chunk) (rest : List StreamSignal) :
    (cs.map StreamSignal.chunk ++ StreamSignal.eof :: rest).takeWhile
        StreamSignal.isChunk = cs.map StreamSignal.chunk := by
  induction cs with
  | nil => simp [List.takeWhile, StreamSignal.isChunk]
  | cons c cs ih => simp [List.takeWhile, StreamSignal.isChunk, ih]

theorem dropWhile_chunk_front (cs : List Chunk) (rest : List StreamSignal) :
    (cs.map StreamSignal.chunk ++ StreamSignal.eof :: rest).dropWhile
        StreamSignal.isChunk = StreamSignal.eof :: rest := by
  induction cs with
  | nil => simp [List.dropWhile, StreamSignal.isChunk]
  | cons c cs ih => simp [List.dropWhile, StreamSignal.isChunk, ih]

theorem deliveredChunks_chunk_front (cs : List Chunk) (rest : List StreamSignal) :
    deliveredChunks (cs.map StreamSignal.chunk ++ StreamSignal.eof :: rest) = cs := by
  rw [deliveredChunks, takeWhile_chunk_front]
  induction cs with
  | nil => rfl
  | cons c cs ih =>
    simp only [List.map_cons, List.filterMap_cons]
    exact congrArg (c :: ·) ih

theorem firstTerminator_chunk_front (cs : List Chunk) (rest : List StreamSignal) :
    firstTerminator (cs.map StreamSignal.chunk ++ StreamSignal.eof :: rest) =
      some StreamSignal.eof := by
  rw [firstTerminator, dropWhile_chunk_front]
  rfl

theorem errCount_handleSocketEvent (e : SocketEvent) :
    errCount (handleSocketEvent e) = 0 := by
  cases e with
  | data c isLast => cases isLast <;> rfl
  | aborted => rfl

theorem errCount_append (a b : List StreamSignal) :
    errCount (a ++ b) = errCount a + errCount b := by
  simp [errCount, List.filter_append]

theorem errCount_pushedSignals (events : List SocketEvent) :
    errCount (pushedSignals events) = 0 := by
  induction events with
  | nil => rfl
  | cons e es ih =>
    rw [pushedSignals, errCount_append, errCount_handleSocketEvent, ih]

theorem eofCount_append (a b : List StreamSignal) :
    eofCount (a ++ b) = eofCount a + eofCount b := by
  simp [eofCount, List.filter_append]

theorem eofCount_chunk_map (cs : List Chunk) :
    eofCount (cs.map StreamSignal.chunk) = 0 := by
  induction cs with
  | nil => rfl
  | cons c cs ih =>
    simp only [List.map_cons, eofCount, List.filter, StreamSignal.isEof]
    exact ih

/-- Claim C6: every chunk pushed through the chunk aggregator in arrival
order, followed by a chunk with the last-flag set, is pushed into the stream
in the same order, observed by the consumer in the same order, and the stream
signals completion exactly once (one end-of-stream signal after the final
chunk, no error). -/
theorem chunks_delivered_in_order_then_complete_once
    (chunks : List Chunk) (finalChunk : Chunk) :
    pushedSignals (chunks.map (fun c => SocketEvent.data c false) ++
        [SocketEvent.data finalChunk true]) =
      (chunks ++ [finalChunk]).map StreamSignal.chunk ++ [StreamSignal.eof]
    ∧ deliveredChunks (pushedSignals (chunks.map (fun c => SocketEvent.data c false) ++
        [SocketEvent.data finalChunk true])) = chunks ++ [finalChunk]
    ∧ eofCount (pushedSignals (chunks.map (fun c => SocketEvent.data c false) ++
        [SocketEvent.data finalChunk true])) = 1
    ∧ errCount (pushedSignals (chunks.map (fun c => SocketEvent.data c false) ++
        [SocketEvent.data finalChunk true])) = 0 := by
  have hpush : pushedSignals (chunks.map (fun c => SocketEvent.data c false) ++
      [SocketEvent.data finalChunk true]) =
      (chunks ++ [finalChunk]).map StreamSignal.chunk ++ [StreamSignal.eof] := by
    rw [pushedSignals_append, pushedSignals_data_false]
    simp [pushedSignals, handleSocketEvent]
  refine ⟨hpush, ?_, ?_, errCount_pushedSignals _⟩
  · rw [hpush]
    exact deliveredChunks_chunk_front (chunks ++ [finalChunk]) []
  · rw [hpush, eofCount_append, eofCount_chunk_map]
    rfl

/-- Claim C7: firing the abort signal at any point before the last-flag chunk
makes the consumer's body stream complete cleanly (first terminating signal is
end-of-stream, no error signal ever) and deliver exactly the chunks pushed
before the abort — none pushed after it. -/
theorem abort_truncates_stream_cleanly (pre post : List SocketEvent)
    (hpre : ∀ e ∈ pre, ∃ c, e = SocketEvent.data c false) :
    deliveredChunks (pushedSignals (pre ++ SocketEvent.aborted :: post)) =
      dataChunks pre
    ∧ firstTerminator (pushedSignals (pre ++ SocketEvent.aborted :: post)) =
      some StreamSignal.eof
    ∧ errCount (pushedSignals (pre ++ SocketEvent.aborted :: post)) = 0 := by
  have hpush : pushedSignals (pre ++ SocketEvent.aborted :: post) =
      (dataChunks pre).map StreamSignal.chunk ++
        StreamSignal.eof :: pushedSignals post := by
    rw [pushedSignals_append, pushedSignals_of_data_events pre hpre]
    simp [pushedSignals, handleSocketEvent]
  exact ⟨by rw [hpush, deliveredChunks_chunk_front],
    by rw [hpush, firstTerminator_chunk_front],
    errCount_pushedSignals _⟩

/-- Witness for C7 at a concrete input: one chunk before the abort, one
last-flag chunk pushed after it. -/
theorem abort_truncates_stream_cleanly_witness :
    deliveredChunks (pushedSignals ([SocketEvent.data [1, 2] false] ++
        SocketEvent.aborted :: [SocketEvent.data [9] true])) = [[1, 2]]
    ∧ firstTerminator (pushedSignals ([SocketEvent.data [1, 2] false] ++
        SocketEvent.aborted :: [SocketEvent.data [9] true])) =
      some StreamSignal.eof
    ∧ errCount (pushedSignals ([SocketEvent.data [1, 2] false] ++
        SocketEvent.aborted :: [SocketEvent.data [9] true])) = 0 := by
  have h := abort_truncates_stream_cleanly [SocketEvent.data [1, 2] false]
    [SocketEvent.data [9] true] (by
      intro e he
      rw [List.mem_singleton] at he
      exact ⟨[1, 2], he⟩)
  exact h

theorem traceEffects_append (a b : List SinkCall) :
    traceEffects (a ++ b) = traceEffects a ++ traceEffects b := by
  induction a with
  | nil => rfl
  | cons c cs ih => simp [traceEffects, ih]

theorem traceEffects_writeHeader_map (l : List (String × String)) :
    traceEffects (l.map fun kv => SinkCall.writeHeader kv.1 kv.2) =
      l.map fun kv => SinkEffect.headerEff kv.1 kv.2 := by
  induction l with
  | nil => rfl
  | cons kv rest ih => simp [traceEffects, callEffects, ih]

theorem traceEffects_write_map (cs : List Chunk) :
    traceEffects (cs.map SinkCall.write) = cs.map SinkEffect.bodyWrite := by
  induction cs with
  | nil => rfl
  | cons c rest ih => simp [traceEffects, callEffects, ih]

theorem traceEffects_headerCalls (hs : List (String × String)) :
    traceEffects (headerCalls hs) = expectedHeaderEffects hs :=
  traceEffects_writeHeader_map _

theorem traceEffects_bodyCalls (b : Option RBody) :
    traceEffects (bodyCalls b) = expectedBodyEffects b := by
  cases b with
  | none => rfl
  | some rb =>
    cases rb with
    | buffer bs => rfl
    | stream cs =>
      rw [bodyCalls, expectedBodyEffects, traceEffects_append, traceEffects_write_map]
      rfl

/-- The full effect trace of the response writer, split into status line,
filtered headers, and body effects. -/
theorem responseTrace_eq (r : ResponseModel) :
    traceEffects (responseCalls r) =
      .statusEff (statusLine r) ::
        (expectedHeaderEffects r.headers ++ expectedBodyEffects r.body) := by
  rw [responseCalls, traceEffects, traceEffects_append, traceEffects_headerCalls,
    traceEffects_bodyCalls]
  rfl

theorem bodyWritesOf_append (a b : List SinkEffect) :
    bodyWritesOf (a ++ b) = bodyWritesOf a ++ bodyWritesOf b := by
  simp [bodyWritesOf, List.filterMap_append]

theorem bodyWritesOf_headerEff_map (l : List (String × String)) :
    bodyWritesOf (l.map fun kv => SinkEffect.headerEff kv.1 kv.2) = [] := by
  induction l with
  | nil => rfl
  | cons kv rest ih =>
    simp only [List.map_cons, bodyWritesOf, List.filterMap_cons] at ih ⊢
    exact ih

theorem bodyWritesOf_expectedBodyEffects (b : Option RBody) :
    bodyWritesOf (expectedBodyEffects b) = expectedBodyChunks b := by
  cases b with
  | none => rfl
  | some rb =>
    cases rb with
    | buffer bs => rfl
    | stream cs =>
      rw [expectedBodyEffects, expectedBodyChunks, bodyWritesOf_append]
      have : bodyWritesOf (cs.map SinkEffect.bodyWrite) = cs := by
        induction cs with
        | nil => rfl
        | cons c rest ih =>
          simp only [List.map_cons, bodyWritesOf, List.filterMap_cons] at ih ⊢
          exact congrArg (c :: ·) ih
      rw [this]
      simp [bodyWritesOf]

theorem termCountOf_append (a b : List SinkEffect) :
    termCountOf (a ++ b) = termCountOf a + termCountOf b := by
  simp [termCountOf, List.filter_append]

theorem termCountOf_headerEff_map (l : List (String × String)) :
    termCountOf (l.map fun kv => SinkEffect.headerEff kv.1 kv.2) = 0 := by
  induction l with
  | nil => rfl
  | cons kv rest ih =>
    simp only [List.map_cons, termCountOf, List.filter, SinkEffect.isTerm] at ih ⊢
    exact ih

theorem termCountOf_bodyWrite_map (cs : List Chunk) :
    termCountOf (cs.map SinkEffect.bodyWrite) = 0 := by
  induction cs with
  | nil => rfl
  | cons c rest ih =>
    simp only [List.map_cons, termCountOf, List.filter, SinkEffect.isTerm] at ih ⊢
    exact ih

theorem termCountOf_expectedBodyEffects (b : Option RBody) :
    termCountOf (expectedBodyEffects b) = 1 := by
  cases b with
  | none => rfl
  | some rb =>
    cases rb with
    | buffer bs => rfl
    | stream cs =>
      rw [expectedBodyEffects, termCountOf_append, termCountOf_bodyWrite_map]
      rfl

theorem expectedBodyEffects_getLast (b : Option RBody) :
    (expectedBodyEffects b).getLast? = some SinkEffect.term := by
  cases b with
  | none => rfl
  | some rb =>
    cases rb with
    | buffer bs => rfl
    | stream cs =>
      rw [expectedBodyEffects, List.getLast?_append]
      rfl

theorem termCountOf_responseCalls (r : ResponseModel) :
    termCountOf (traceEffects (responseCalls r)) = 1 := by
  rw [responseTrace_eq r]
  rw [show (SinkEffect.statusEff (statusLine r) ::
      (expectedHeaderEffects r.headers ++ expectedBodyEffects r.body)) =
      ([SinkEffect.statusEff (statusLine r)] ++ expectedHeaderEffects r.headers) ++
        expectedBodyEffects r.body by simp]
  rw [termCountOf_append, termCountOf_append, termCountOf_expectedBodyEffects,
    expectedHeaderEffects, termCountOf_headerEff_map]
  rfl

/-- Claim C5: the writer round-trip — exactly the response body's bytes are
written (one write with all the bytes for a buffer body, one ordered write per
chunk for a stream body, none when there is no body), the effect trace is the
status line, then the filtered headers, then the body effects, the last effect
terminates the exchange, and in every branch the exchange is terminated
exactly once. -/
theorem writer_roundtrip_single_termination (r : ResponseModel) :
    traceEffects (responseCalls r) =
      .statusEff (statusLine r) ::
        (expectedHeaderEffects r.headers ++ expectedBodyEffects r.body)
    ∧ bodyWritesOf (traceEffects (responseCalls r)) = expectedBodyChunks r.body
    ∧ termCountOf (traceEffects (responseCalls r)) = 1
    ∧ (traceEffects (responseCalls r)).getLast? = some SinkEffect.term := by
  refine ⟨responseTrace_eq r, ?_, termCountOf_responseCalls r, ?_⟩
  · rw [responseTrace_eq r]
    show bodyWritesOf (SinkEffect.statusEff (statusLine r) ::
      (expectedHeaderEffects r.headers ++ expectedBodyEffects r.body)) = _
    rw [show (SinkEffect.statusEff (statusLine r) ::
        (expectedHeaderEffects r.headers ++ expectedBodyEffects r.body)) =
        ([SinkEffect.statusEff (statusLine r)] ++ expectedHeaderEffects r.headers) ++
          expectedBodyEffects r.body by simp]
    rw [bodyWritesOf_append, bodyWritesOf_append, bodyWritesOf_expectedBodyEffects,
      expectedHeaderEffects, bodyWritesOf_headerEff_map]
    rfl
  · rw [responseTrace_eq r]
    rw [show (SinkEffect.statusEff (statusLine r) ::
        (expectedHeaderEffects r.headers ++ expectedBodyEffects r.body)) =
        ([SinkEffect.statusEff (statusLine r)] ++ expectedHeaderEffects r.headers) ++
          expectedBodyEffects r.body by simp]
    rw [List.getLast?_append, expectedBodyEffects_getLast]
    rfl

theorem filterMap_headerOf_writeHeader_map (l : List (String × String)) :
    (l.map fun kv => SinkCall.writeHeader kv.1 kv.2).filterMap headerOf = l := by
  induction l with
  | nil => rfl
  | cons kv rest ih => simp only [List.map_cons, List.filterMap_cons, headerOf, ih]

theorem filterMap_headerOf_write_map (cs : List Chunk) :
    (cs.map SinkCall.write).filterMap headerOf = [] := by
  induction cs with
  | nil => rfl
  | cons c rest ih => simp only [List.map_cons, List.filterMap_cons, headerOf, ih]

theorem filterMap_headerOf_bodyCalls (b : Option RBody) :
    (bodyCalls b).filterMap headerOf = [] := by
  cases b with
  | none => rfl
  | some rb =>
    cases rb with
    | buffer bs => rfl
    | stream cs =>
      rw [bodyCalls, List.filterMap_append, filterMap_headerOf_write_map]
      rfl

theorem headerCalls_no_contentLength (hs : List (String × String)) :
    ((headerCalls hs).all fun c => !mentionsContentLength c) = true := by
  rw [List.all_eq_true]
  intro c hc
  rw [headerCalls, List.mem_map] at hc
  obtain ⟨kv, hmem, rfl⟩ := hc
  rw [List.mem_filter] at hmem
  simp only [mentionsContentLength, hmem.2, Bool.not_false]

theorem bodyCalls_no_contentLength (b : Option RBody) :
    ((bodyCalls b).all fun c => !mentionsContentLength c) = true := by
  cases b with
  | none => rfl
  | some rb =>
    cases rb with
    | buffer bs => rfl
    | stream cs =>
      rw [bodyCalls, List.all_append]
      refine Bool.and_eq_true_iff.mpr ⟨?_, rfl⟩
      rw [List.all_eq_true]
      intro c hc
      rw [List.mem_map] at hc
      obtain ⟨x, _, rfl⟩ := hc
      rfl

theorem headersPrecedeBodyWrites_of_no_headerEff (l : List SinkEffect)
    (h : (l.all fun e => !e.isHeaderEff) = true) :
    headersPrecedeBodyWrites l = true := by
  induction l with
  | nil => rfl
  | cons e rest ih =>
    rw [List.all_cons, Bool.and_eq_true_iff] at h
    cases e with
    | bodyWrite c => exact h.2
    | headerEff k v => simp [SinkEffect.isHeaderEff] at h
    | statusEff s => exact ih h.2
    | term => exact ih h.2

theorem no_headerEff_expectedBodyEffects (b : Option RBody) :
    ((expectedBodyEffects b).all fun e => !e.isHeaderEff) = true := by
  cases b with
  | none => rfl
  | some rb =>
    cases rb with
    | buffer bs => rfl
    | stream cs =>
      rw [expectedBodyEffects, List.all_append]
      refine Bool.and_eq_true_iff.mpr ⟨?_, rfl⟩
      rw [List.all_eq_true]
      intro e he
      rw [List.mem_map] at he
      obtain ⟨x, _, rfl⟩ := he
      rfl

theorem headersPrecedeBodyWrites_headerEff_front (l : List (String × String))
    (tail : List SinkEffect) (htail : headersPrecedeBodyWrites tail = true) :
    headersPrecedeBodyWrites ((l.map fun kv => SinkEffect.headerEff kv.1 kv.2) ++
      tail) = true := by
  induction l with
  | nil => exact htail
  | cons kv rest ih => exact ih

/-- Claim C2: the writer issues the status line first, formatted as
`<numeric status> <status text>`; the header writes are exactly the response
headers, in the order provided, minus every header literally named
`content-length` (whatever its value); no forwarded header is named
`content-length`; and in the effect trace every header write precedes every
body write. -/
theorem writer_status_headers_order_no_contentLength (r : ResponseModel) :
    (responseCalls r).head? = some (.writeStatus (statusLine r))
    ∧ (responseCalls r).filterMap headerOf =
      r.headers.filter (fun kv => !(kv.1 == "content-length"))
    ∧ ((responseCalls r).all fun c => !mentionsContentLength c) = true
    ∧ headersPrecedeBodyWrites (traceEffects (responseCalls r)) = true := by
  refine ⟨rfl, ?_, ?_, ?_⟩
  · rw [responseCalls, List.filterMap_cons, List.filterMap_append,
      filterMap_headerOf_bodyCalls, headerCalls, filterMap_headerOf_writeHeader_map]
    simp [headerOf]
  · rw [responseCalls, List.all_cons, List.all_append]
    rw [headerCalls_no_contentLength, bodyCalls_no_contentLength]
    rfl
  · rw [responseTrace_eq r]
    show headersPrecedeBodyWrites
      (expectedHeaderEffects r.headers ++ expectedBodyEffects r.body) = true
    rw [expectedHeaderEffects]
    exact headersPrecedeBodyWrites_headerEff_front _ _
      (headersPrecedeBodyWrites_of_no_headerEff _ (no_headerEff_expectedBodyEffects r.body))

/-- Claim C3: the adapted request has no body stream exactly when the method is
one of the two bodyless verbs (`get`, `head` — `req.getMethod()` lower-cases);
for every other method the attached body is the stream backed by the chunk
aggregator. -/
theorem body_absent_iff_bodyless_verb (req : HttpRequestModel) :
    ((adaptRequest req).body = none ↔ req.method = "get" ∨ req.method = "head")
    ∧ (¬(req.method = "get" ∨ req.method = "head") →
      (adaptRequest req).body = some pushedSignals) := by
  have hbody : (adaptRequest req).body =
      if req.method ≠ "get" ∧ req.method ≠ "head" then some pushedSignals
      else none := rfl
  by_cases h : req.method = "get" ∨ req.method = "head"
  · have hcond : ¬(req.method ≠ "get" ∧ req.method ≠ "head") := by
      rcases h with h | h
      · exact fun hc => hc.1 h
      · exact fun hc => hc.2 h
    rw [hbody, if_neg hcond]
    exact ⟨⟨fun _ => h, fun _ => rfl⟩, fun hn => absurd h hn⟩
  · have hcond : req.method ≠ "get" ∧ req.method ≠ "head" :=
      ⟨fun he => h (Or.inl he), fun he => h (Or.inr he)⟩
    rw [hbody, if_pos hcond]
    exact ⟨⟨fun hs => absurd hs (Option.some_ne_none _), fun hor => absurd hor h⟩,
      fun _ => rfl⟩

/-- Witness for C3: a POST request gets the aggregator-backed stream; a GET
request gets no body. -/
theorem body_absent_iff_bodyless_verb_witness :
    (adaptRequest { method := "post", url := "/graphql", headerPairs := [] }).body =
      some pushedSignals
    ∧ (adaptRequest { method := "get", url := "/graphql", headerPairs := [] }).body =
      none := by
  constructor
  · exact (body_absent_iff_bodyless_verb
      { method := "post", url := "/graphql", headerPairs := [] }).2 (by decide)
  · exact (body_absent_iff_bodyless_verb
      { method := "get", url := "/graphql", headerPairs := [] }).1.mpr (Or.inl rfl)

theorem buildHeaders_foldl (pairs : List (String × String))
    (init : String → Option String) (k : String) :
    pairs.foldl (fun m kv => fun q => if q = kv.1 then some kv.2 else m q) init k =
      match specLookupLastWins pairs k with
      | some v => some v
      | none => init k := by
  induction pairs generalizing init with
  | nil => rfl
  | cons kv rest ih =>
    rw [List.foldl_cons, ih]
    cases hspec : specLookupLastWins rest k with
    | some v => simp [specLookupLastWins, hspec]
    | none =>
      simp only [specLookupLastWins, hspec]
      by_cases hk : k = kv.1
      · simp [hk]
      · have hk2 : ¬kv.1 = k := fun he => hk he.symm
        simp [hk, hk2]

theorem buildHeaders_lookup (pairs : List (String × String)) (k : String) :
    buildHeaders pairs k = specLookupLastWins pairs k := by
  rw [buildHeaders, buildHeaders_foldl]
  cases specLookupLastWins pairs k <;> rfl

theorem specLookupLastWins_isSome_mem (pairs : List (String × String)) (k : String)
    (h : (specLookupLastWins pairs k).isSome = true) : ∃ kv ∈ pairs, kv.1 = k := by
  induction pairs with
  | nil => simp [specLookupLastWins] at h
  | cons kv rest ih =>
    rw [specLookupLastWins] at h
    cases hspec : specLookupLastWins rest k with
    | some v =>
      obtain ⟨kv2, hmem, hk⟩ := ih (by rw [hspec]; rfl)
      exact ⟨kv2, List.mem_cons_of_mem _ hmem, hk⟩
    | none =>
      rw [hspec] at h
      by_cases hk : kv.1 = k
      · exact ⟨kv, List.mem_cons_self kv rest, hk⟩
      · rw [if_neg hk] at h
        exact absurd h (by decide)

/-- Claim C8: the header mapping handed to the query engine is the eagerly
copied one — built from the header iterator snapshot before the first
asynchronous suspension (`await yoga.fetch`) — is last-write-wins on duplicate
keys, and has lower-cased keys whenever the socket layer delivers lower-cased
keys (uWebSockets.js does). -/
theorem headers_eager_lowercase_last_write_wins (req : HttpRequestModel)
    (hlower : ∀ kv ∈ req.headerPairs, isLowercaseKey kv.1 = true) :
    (adaptRequest req).headers = buildHeaders req.headerPairs
    ∧ (∀ k, buildHeaders req.headerPairs k = specLookupLastWins req.headerPairs k)
    ∧ (∀ k, (buildHeaders req.headerPairs k).isSome = true → isLowercaseKey k = true)
    ∧ idxOfPhase .copyHeaders (yogaHandlerPhases req.method) <
        idxOfPhase .awaitFetch (yogaHandlerPhases req.method) := by
  refine ⟨rfl, fun k => buildHeaders_lookup _ k, ?_, ?_⟩
  · intro k hk
    rw [buildHeaders_lookup] at hk
    obtain ⟨kv, hmem, hkey⟩ := specLookupLastWins_isSome_mem _ _ hk
    rw [← hkey]
    exact hlower kv hmem
  · by_cases h : req.method ≠ "get" ∧ req.method ≠ "head"
    · simp only [yogaHandlerPhases, if_pos h]
      decide
    · simp only [yogaHandlerPhases, if_neg h]
      decide

/-- Witness for C8: duplicate keys resolve to the last-written value and a
present key is lower-case. -/
theorem headers_eager_lowercase_last_write_wins_witness :
    buildHeaders [("accept", "1"), ("accept", "2")] "accept" = some "2"
    ∧ isLowercaseKey "accept" = true := by
  have h := headers_eager_lowercase_last_write_wins
    { method := "post", url := "/graphql",
      headerPairs := [("accept", "1"), ("accept", "2")] }
    (by
      intro kv hkv
      rw [List.mem_cons, List.mem_singleton] at hkv
      rcases hkv with rfl | rfl <;> decide)
  refine ⟨(h.2.1 "accept").trans (by decide), ?_⟩
  exact h.2.2.1 "accept" (by decide)

/-- Counterexample to claim C9: the write path consults no aborted flag, so
even with the abort signal already fired the writer still issues the status,
header and termination calls — here, three concrete calls on an aborted
exchange. -/
theorem writer_writes_after_abort_counterexample :
    writePhaseCalls true
        { status := 200, statusText := "OK", headers := [("a", "b")], body := none } =
      [.writeStatus "200 OK", .writeHeader "a" "b", .endCall none] := by
  decide

/-- Claim C9 (amended): once the abort signal has fired, the writer's behavior
is unchanged — it issues exactly the same status, header, chunk and
termination calls as on an un-aborted exchange (still terminating exactly
once); discarding writes after abort is the sink's responsibility, not this
layer's. -/
theorem writer_calls_independent_of_abort (aborted : Bool) (r : ResponseModel) :
    writePhaseCalls aborted r = writePhaseCalls false r
    ∧ writePhaseCalls aborted r = responseCalls r
    ∧ termCountOf (traceEffects (writePhaseCalls aborted r)) = 1 :=
  ⟨rfl, rfl, termCountOf_responseCalls r⟩

/-- Claim C1: for every start-operation frame that passes parsing and
validation, the implementation the behavior invokes is exactly the one the
enveloped-context resolution returned for that very operation (carried through
`rootValue`): the outcome for operation `n` is a function of `getEnveloped n`
alone, so after the active implementation is swapped, a new operation invokes
the newly active one. -/
theorem fresh_impl_invoked_per_operation {S D E I C V : Type}
    (getEnveloped : Nat → Envelope S D E I C) (n : Nat) (isSubscription : Bool)
    (msg : SubscribeMessage V) (doc : D)
    (hparse : (getEnveloped n).parse msg.payload.query = .ok doc)
    (hvalid : (getEnveloped n).validate (getEnveloped n).schema doc = []) :
    runOperation isSubscription (getEnveloped n) msg =
      .started (if isSubscription then (getEnveloped n).subscribe
        else (getEnveloped n).execute) := by
  rw [runOperation, onSubscribeRun]
  rw [hparse]
  simp only [hvalid, List.length_nil, ne_eq, not_true_eq_false, if_neg, ite_false,
    reduceCtorEq]
  cases isSubscription <;> rfl

/-- Witness for C1: two operations resolved against different envelopes (the
active execute implementation swapped from id 5 to id 7 between them) each
invoke their own operation's implementation. -/
theorem fresh_impl_invoked_per_operation_witness :
    runOperation false
        ((fun k => ({ schema := ()
                      execute := k
                      subscribe := k + 100
                      contextFactory := ()
                      parse := fun _ => Except.ok ()
                      validate := fun _ _ => ([] : List String) } :
            Envelope Unit Unit String Nat Unit)) 5)
        { payload := { operationName := none, query := "hello", vars := () } } =
      OpOutcome.started 5
    ∧ runOperation false
        ((fun k => ({ schema := ()
                      execute := k
                      subscribe := k + 100
                      contextFactory := ()
                      parse := fun _ => Except.ok ()
                      validate := fun _ _ => ([] : List String) } :
            Envelope Unit Unit String Nat Unit)) 7)
        { payload := { operationName := none, query := "hello", vars := () } } =
      OpOutcome.started 7 :=
  ⟨fresh_impl_invoked_per_operation
      (fun k => { schema := ()
                  execute := k
                  subscribe := k + 100
                  contextFactory := ()
                  parse := fun _ => Except.ok ()
                  validate := fun _ _ => ([] : List String) }) 5 false
      { payload := { operationName := none, query := "hello", vars := () } }
      () rfl rfl,
    fresh_impl_invoked_per_operation
      (fun k => { schema := ()
                  execute := k
                  subscribe := k + 100
                  contextFactory := ()
                  parse := fun _ => Except.ok ()
                  validate := fun _ _ => ([] : List String) }) 7 false
      { payload := { operationName := none, query := "hello", vars := () } }
      () rfl rfl⟩

/-- Claim C4: when validation of the parsed document produces a non-empty
error list, the operation's terminal outcome is exactly that full error list
and the execute/subscribe implementations are never invoked. -/
theorem validation_errors_abort_operation {S D E I C V : Type}
    (env : Envelope S D E I C) (msg : SubscribeMessage V) (doc : D) (errs : List E)
    (isSubscription : Bool)
    (hparse : env.parse msg.payload.query = .ok doc)
    (hvalid : env.validate env.schema doc = errs) (hne : errs ≠ []) :
    runOperation isSubscription env msg = .errorMessage errs
    ∧ ∀ impl, runOperation isSubscription env msg ≠ .started impl := by
  have hlen : errs.length ≠ 0 := fun h0 => hne (List.length_eq_zero.mp h0)
  have hmain : runOperation isSubscription env msg = .errorMessage errs := by
    rw [runOperation, onSubscribeRun]
    rw [hparse]
    simp only [hvalid, if_pos hlen]
  exact ⟨hmain, fun impl h => by rw [hmain] at h; exact OpOutcome.noConfusion h⟩

/-- Witness for C4: a validation failure with two collected errors becomes the
terminal outcome, both errors together. -/
theorem validation_errors_abort_operation_witness :
    runOperation false
        ({ schema := ()
           execute := 5
           subscribe := 105
           contextFactory := ()
           parse := fun _ => Except.ok ()
           validate := fun _ _ => ["first error", "second error"] } :
            Envelope Unit Unit String Nat Unit)
        { payload := { operationName := none, query := "bad", vars := () } } =
      OpOutcome.errorMessage ["first error", "second error"] :=
  (validation_errors_abort_operation
    { schema := ()
      execute := 5
      subscribe := 105
      contextFactory := ()
      parse := fun _ => Except.ok ()
      validate := fun _ _ => ["first error", "second error"] }
    { payload := { operationName := none, query := "bad", vars := () } }
    () ["first error", "second error"] false rfl rfl (by decide)).1

/-- Claim C10: `onSubscribe` resolves the envelope, parses, and awaits the
context factory before validating — the step trace for a well-formed query is
always resolve, parse, context, validate, even when validation subsequently
fails; and a malformed query makes `onSubscribe` throw the parse exception
(an `error` outcome) rather than return an error list. -/
theorem onSubscribe_context_before_validate {S D E I C V : Type}
    (env : Envelope S D E I C) (msg : SubscribeMessage V) :
    (∀ e, env.parse msg.payload.query = .error e →
      onSubscribeRun env msg = ([.getEnvelopedCall, .parseCall], .error e))
    ∧ (∀ doc, env.parse msg.payload.query = .ok doc →
      (onSubscribeRun env msg).1 =
        [.getEnvelopedCall, .parseCall, .contextFactoryCall, .validateCall]) := by
  constructor
  · intro e he
    rw [onSubscribeRun, he]
  · intro doc hdoc
    rw [onSubscribeRun, hdoc]

/-- Witness for C10: a malformed query throws the parse exception; a
well-formed query whose validation fails still reaches the context factory
before validation. -/
theorem onSubscribe_context_before_validate_witness :
    onSubscribeRun
        ({ schema := ()
           execute := 5
           subscribe := 105
           contextFactory := ()
           parse := fun _ => Except.error "Syntax Error"
           validate := fun _ _ => ([] : List String) } :
            Envelope Unit Unit String Nat Unit)
        { payload := { operationName := none, query := "malformed", vars := () } } =
      ([.getEnvelopedCall, .parseCall], .error "Syntax Error")
    ∧ (onSubscribeRun
        ({ schema := ()
           execute := 5
           subscribe := 105
           contextFactory := ()
           parse := fun _ => Except.ok ()
           validate := fun _ _ => ["bad field"] } :
            Envelope Unit Unit String Nat Unit)
        { payload := { operationName := none, query := "invalidField", vars := () } }).1 =
      [.getEnvelopedCall, .parseCall, .contextFactoryCall, .validateCall] :=
  ⟨(onSubscribe_context_before_validate
      { schema := ()
        execute := 5
        subscribe := 105
        contextFactory := ()
        parse := fun _ => Except.error "Syntax Error"
        validate := fun _ _ => ([] : List String) }
      { payload := { operationName := none, query := "malformed", vars := () } }).1
      "Syntax Error" rfl,
    (onSubscribe_context_before_validate
      { schema := ()
        execute := 5
        subscribe := 105
        contextFactory := ()
        parse := fun _ => Except.ok ()
        validate := fun _ _ => ["bad field"] }
      { payload := { operationName := none, query := "invalidField", vars := () } }).2
      () rfl⟩

end UwsYoga

